import Mathlib

/-!
Verification development for the AI-Home-Assistant repository:
a shallow embedding of its zone-attribution and detection-memory
subsystem, with theorems settling the frozen specification claims.

Conventions of the embedding:
* Python floats are modelled as exact rationals; all numeric literals
  of the source (0.33, 0.67, pixel coordinates) are embedded as the
  rationals they denote.
* The SQLite detection table is modelled as a list of rows in insertion
  order; SQL text comparison is modelled by lexicographic comparison of
  character lists, and SQL LIKE by an explicit matcher with ASCII case
  folding, mirroring SQLite's default semantics.
* The zones.json file is modelled by a FileContent state: absent,
  unparseable text, or text that parses to a JSON value; the json
  library's dump/parse pair is assumed faithful on the values written.
* Fallible Python code that catches exceptions is modelled by total
  functions returning the caught-path value; code whose exceptions
  escape to the caller is modelled with Option.
-/

namespace AIHome

/-- A custom zone as stored in zones.json: a name and a bbox
(x, y, width, height) in pixel units, from zone_definition_tool.py. -/
structure Zone where
  name : String
  x : ℚ
  y : ℚ
  w : ℚ
  h : ℚ
deriving DecidableEq, Repr

/-- ZoneFocusedDetector.is_point_in_zone: inclusive-bounds membership test
zone_x <= x <= zone_x + zone_w and zone_y <= y <= zone_y + zone_h.
The same test appears inline in VisualMemory.get_location_for_bbox. -/
def is_point_in_zone (px py : ℚ) (zone : Zone) : Bool :=
  decide (zone.x ≤ px ∧ px ≤ zone.x + zone.w ∧ zone.y ≤ py ∧ py ≤ zone.y + zone.h)

/-- ZoneFocusedDetector.get_zone_for_point: scans the stored zone list in
order and returns the first zone containing the point, else the
sentinel string used by the source. -/
def get_zone_for_point : List Zone → ℚ → ℚ → String
  | [], _, _ => "outside_zones"
  | zone :: rest, px, py =>
    if is_point_in_zone px py zone then zone.name else get_zone_for_point rest px py

/-- The nine generic area labels producible by the quadrant fallback of
VisualMemory.get_location_for_bbox. -/
def quadrant_labels : List String :=
  ["top-left area", "top-center area", "top-right area",
   "middle-left area", "middle-center area", "middle-right area",
   "bottom-left area", "bottom-center area", "bottom-right area"]

/-- VisualMemory.get_location_for_bbox: computes the bbox center, scans the
custom zones in stored order for the first inclusive-bounds match, and
otherwise falls back to the generic 3x3 location mapping with the
source's literal thresholds 0.33 and 0.67. The zones argument stands
for the successfully decoded content of zones.json. -/
def get_location_for_bbox (zones : List Zone) (x y w h fw fh : ℚ) : String :=
  let cx := x + w / 2
  let cy := y + h / 2
  match zones.find? (fun zone => is_point_in_zone cx cy zone) with
  | some zone => zone.name
  | none =>
    let relX := cx / fw
    let relY := cy / fh
    let xRegion := if relX < 33/100 then "left" else if relX < 67/100 then "center" else "right"
    let yRegion := if relY < 33/100 then "top" else if relY < 67/100 then "middle" else "bottom"
    yRegion ++ "-" ++ xRegion ++ " area"

lemma get_zone_for_point_eq_find (zones : List Zone) (px py : ℚ) :
    get_zone_for_point zones px py =
      ((zones.find? (fun zone => is_point_in_zone px py zone)).map Zone.name).getD
        "outside_zones" := by
  induction zones with
  | nil => rfl
  | cons zone rest ih =>
    by_cases hz : is_point_in_zone px py zone
    · simp [get_zone_for_point, List.find?_cons, hz]
    · simp only [Bool.not_eq_true] at hz
      simp [get_zone_for_point, List.find?_cons, hz, ih]

lemma find?_first_index {α : Type} (p : α → Bool) (l : List α) :
    ∀ (i : Nat) (hi : i < l.length), p (l.get ⟨i, hi⟩) = true →
      ∃ (k : Nat) (hk : k < l.length), k ≤ i ∧ p (l.get ⟨k, hk⟩) = true ∧
        l.find? p = some (l.get ⟨k, hk⟩) ∧
        ∀ (m : Nat) (hm : m < l.length), m < k → p (l.get ⟨m, hm⟩) = false := by
  induction l with
  | nil => intro i hi; exact absurd hi (Nat.not_lt_zero i)
  | cons a t ih =>
    intro i hi hp
    by_cases ha : p a = true
    · refine ⟨0, Nat.succ_pos _, Nat.zero_le _, ha, ?_, ?_⟩
      · simp [List.find?_cons, ha]
      · intro m hm hmk; exact absurd hmk (Nat.not_lt_zero m)
    · have ha' : p a = false := by simpa using ha
      match i, hi with
      | 0, _ => exact absurd hp ha
      | i' + 1, hi =>
        have hi' : i' < t.length := Nat.lt_of_succ_lt_succ hi
        obtain ⟨k, hk, hki, hpk, hfind, hmin⟩ := ih i' hi' hp
        refine ⟨k + 1, Nat.succ_lt_succ hk, Nat.succ_le_succ hki, hpk, ?_, ?_⟩
        · simp [List.find?_cons, ha', hfind]
        · intro m hm hmk
          match m, hm with
          | 0, _ => exact ha'
          | m' + 1, hm => exact hmin m' (Nat.lt_of_succ_lt_succ hm) (Nat.lt_of_succ_lt_succ hmk)

/-- C1: zone resolution tests membership with inclusive bounds on all four
edges, iterates the stored zone list in order, and returns the first
containing zone's name; the same first-match rule governs the zone
phase of get_location_for_bbox, and whenever zones A and B both contain
the point with A earlier in the list, the returned name is that of a
containing zone at an index no later than A's (so a later overlapping
zone is never preferred). -/
theorem zone_resolution_first_match :
    (∀ (z : Zone) (px py : ℚ),
      is_point_in_zone px py z = true ↔
        z.x ≤ px ∧ px ≤ z.x + z.w ∧ z.y ≤ py ∧ py ≤ z.y + z.h)
    ∧ (∀ (zones : List Zone) (px py : ℚ) (z : Zone),
      zones.find? (fun zo => is_point_in_zone px py zo) = some z →
        get_zone_for_point zones px py = z.name)
    ∧ (∀ (zones : List Zone) (px py : ℚ),
      zones.find? (fun zo => is_point_in_zone px py zo) = none →
        get_zone_for_point zones px py = "outside_zones")
    ∧ (∀ (zones : List Zone) (x y w h fw fh : ℚ) (z : Zone),
      zones.find? (fun zo => is_point_in_zone (x + w / 2) (y + h / 2) zo) = some z →
        get_location_for_bbox zones x y w h fw fh = z.name)
    ∧ (∀ (zones : List Zone) (px py : ℚ) (i j : Nat) (hi : i < zones.length)
        (hj : j < zones.length), i < j →
      is_point_in_zone px py (zones.get ⟨i, hi⟩) = true →
      is_point_in_zone px py (zones.get ⟨j, hj⟩) = true →
        ∃ (k : Nat) (hk : k < zones.length), k ≤ i ∧
          is_point_in_zone px py (zones.get ⟨k, hk⟩) = true ∧
          get_zone_for_point zones px py = (zones.get ⟨k, hk⟩).name ∧
          ∀ (m : Nat) (hm : m < zones.length), m < k →
            is_point_in_zone px py (zones.get ⟨m, hm⟩) = false) := by
  refine ⟨?_, ?_, ?_, ?_, ?_⟩
  · intro z px py; simp [is_point_in_zone]
  · intro zones px py z hfind
    rw [get_zone_for_point_eq_find, hfind]; rfl
  · intro zones px py hfind
    rw [get_zone_for_point_eq_find, hfind]; rfl
  · intro zones x y w h fw fh z hfind
    simp only [get_location_for_bbox, hfind]
  · intro zones px py i j hi hj _ hpi _
    obtain ⟨k, hk, hki, hpk, hfind, hmin⟩ :=
      find?_first_index (fun zo => is_point_in_zone px py zo) zones i hi hpi
    exact ⟨k, hk, hki, hpk, by rw [get_zone_for_point_eq_find, hfind]; rfl, hmin⟩

theorem zone_resolution_first_match_witness :
    get_zone_for_point [⟨"desk", 0, 0, 50, 50⟩, ⟨"shelf", 0, 0, 100, 100⟩] 10 10 = "desk" :=
  zone_resolution_first_match.2.1 [⟨"desk", 0, 0, 50, 50⟩, ⟨"shelf", 0, 0, 100, 100⟩] 10 10
    ⟨"desk", 0, 0, 50, 50⟩ (by norm_num [List.find?, is_point_in_zone])

/-- Follows the spec's words for the quadrant fallback, with thresholds at
exactly one third and two thirds of each axis, for comparison with the
source's literal thresholds 0.33 and 0.67. -/
def quadrant_label_spec_thirds (cx cy fw fh : ℚ) : String :=
  (if cy / fh < 1/3 then "top" else if cy / fh < 2/3 then "middle" else "bottom")
  ++ "-"
  ++ (if cx / fw < 1/3 then "left" else if cx / fw < 2/3 then "center" else "right")
  ++ " area"

/-- C2 counterexample: for the bbox (332, 0, 0, 0) in a 1000 x 1000 frame
(center 332, 0, in no zone since the zone set is empty), the source
returns "top-center area" because 332/1000 = 0.332 is not below its
actual threshold 0.33, while thresholds at exactly 1/3 would classify
the center as "top-left area". -/
theorem quadrant_thresholds_counterexample :
    get_location_for_bbox [] 332 0 0 0 1000 1000 = "top-center area"
    ∧ quadrant_label_spec_thirds 332 0 1000 1000 = "top-left area"
    ∧ ("top-center area" : String) ≠ "top-left area" := by
  refine ⟨?_, ?_, by decide⟩
  · norm_num [get_location_for_bbox, List.find?]; rfl
  · norm_num [quadrant_label_spec_thirds]; rfl

/-- C2 amended: when the bbox center lies in no zone, get_location_for_bbox
returns the quadrant label determined by the center's relative position
with thresholds at 0.33 and 0.67 (the source's literals, not exactly 1/3
and 2/3) of each axis, vertical in top/middle/bottom and horizontal in
left/center/right, always one of the nine fixed labels. -/
theorem get_location_for_bbox_quadrant (zones : List Zone) (x y w h fw fh : ℚ)
    (hfw : 0 < fw) (hfh : 0 < fh)
    (hout : ∀ z ∈ zones, is_point_in_zone (x + w / 2) (y + h / 2) z = false) :
    get_location_for_bbox zones x y w h fw fh =
      ((if (y + h / 2) / fh < 33/100 then "top"
        else if (y + h / 2) / fh < 67/100 then "middle" else "bottom")
       ++ "-"
       ++ (if (x + w / 2) / fw < 33/100 then "left"
        else if (x + w / 2) / fw < 67/100 then "center" else "right")
       ++ " area")
    ∧ get_location_for_bbox zones x y w h fw fh ∈ quadrant_labels := by
  have hfind : zones.find? (fun zo => is_point_in_zone (x + w / 2) (y + h / 2) zo) = none :=
    List.find?_eq_none.mpr (fun z hz => by simp [hout z hz])
  constructor
  · simp only [get_location_for_bbox, hfind]
  · simp only [get_location_for_bbox, hfind, quadrant_labels]
    split_ifs <;> decide

theorem get_location_for_bbox_quadrant_witness :
    get_location_for_bbox [] 90 90 5 5 100 100 =
      ((if ((90 : ℚ) + 5 / 2) / 100 < 33/100 then "top"
        else if ((90 : ℚ) + 5 / 2) / 100 < 67/100 then "middle" else "bottom")
       ++ "-"
       ++ (if ((90 : ℚ) + 5 / 2) / 100 < 33/100 then "left"
        else if ((90 : ℚ) + 5 / 2) / 100 < 67/100 then "center" else "right")
       ++ " area")
    ∧ get_location_for_bbox [] 90 90 5 5 100 100 ∈ quadrant_labels :=
  get_location_for_bbox_quadrant [] 90 90 5 5 100 100 (by decide) (by decide) (by simp)

/-- One raw box from the external detector: xyxy corners plus class and
confidence, as unpacked in detect_objects_in_zones and
detect_objects_full_frame. The detector model itself is an external
opaque capability, so the per-frame raw boxes are an input here. -/
structure RawDetection where
  class_name : String
  confidence : ℚ
  x1 : ℚ
  y1 : ℚ
  x2 : ℚ
  y2 : ℚ
  class_id : Nat
deriving DecidableEq, Repr

/-- One detection dict as built by ZoneFocusedDetector: xywh bbox plus the
resolved zone_name. -/
structure Detection where
  class_name : String
  confidence : ℚ
  bbox : ℚ × ℚ × ℚ × ℚ
  class_id : Nat
  zone_name : String
deriving DecidableEq, Repr

/-- ZoneFocusedDetector.detect_objects_full_frame: every raw box is kept and
tagged with the literal zone_name "full_frame". -/
def detect_objects_full_frame (raws : List RawDetection) : List Detection :=
  raws.map (fun r =>
    { class_name := r.class_name, confidence := r.confidence,
      bbox := (r.x1, r.y1, r.x2 - r.x1, r.y2 - r.y1),
      class_id := r.class_id, zone_name := "full_frame" })

/-- ZoneFocusedDetector.detect_objects_in_zones: with no zones loaded it
falls back to full-frame detection; otherwise each raw box's center is
resolved through get_zone_for_point and the box is kept, tagged with the
resolved name, exactly when the result is not the outside_zones
sentinel. -/
def detect_objects_in_zones (zones : List Zone) (raws : List RawDetection) : List Detection :=
  if zones.isEmpty then detect_objects_full_frame raws
  else raws.filterMap (fun r =>
    let zoneName := get_zone_for_point zones ((r.x1 + r.x2) / 2) ((r.y1 + r.y2) / 2)
    if zoneName ≠ "outside_zones" then
      some { class_name := r.class_name, confidence := r.confidence,
             bbox := (r.x1, r.y1, r.x2 - r.x1, r.y2 - r.y1),
             class_id := r.class_id, zone_name := zoneName }
    else none)

lemma mem_detect_objects_in_zones_nonempty {zones : List Zone} {raws : List RawDetection}
    {d : Detection} (hz : zones ≠ []) (hd : d ∈ detect_objects_in_zones zones raws) :
    ∃ r ∈ raws,
      d = { class_name := r.class_name, confidence := r.confidence,
            bbox := (r.x1, r.y1, r.x2 - r.x1, r.y2 - r.y1),
            class_id := r.class_id,
            zone_name := get_zone_for_point zones ((r.x1 + r.x2) / 2) ((r.y1 + r.y2) / 2) }
      ∧ get_zone_for_point zones ((r.x1 + r.x2) / 2) ((r.y1 + r.y2) / 2) ≠ "outside_zones" := by
  rw [detect_objects_in_zones, if_neg (by simpa [List.isEmpty_iff] using hz)] at hd
  obtain ⟨r, hr, hfr⟩ := List.mem_filterMap.mp hd
  by_cases hs : get_zone_for_point zones ((r.x1 + r.x2) / 2) ((r.y1 + r.y2) / 2) = "outside_zones"
  · simp [hs] at hfr
  · refine ⟨r, hr, ?_, hs⟩
    simp only [hs, ne_eq, not_false_eq_true, if_true] at hfr
    exact Option.some.inj hfr.symm

lemma get_zone_for_point_mem_of_ne_sentinel {zones : List Zone} {px py : ℚ}
    (hs : get_zone_for_point zones px py ≠ "outside_zones") :
    ∃ z ∈ zones, is_point_in_zone px py z = true ∧ get_zone_for_point zones px py = z.name := by
  cases hfind : zones.find? (fun zo => is_point_in_zone px py zo) with
  | none => exact absurd (by rw [get_zone_for_point_eq_find, hfind]; rfl) hs
  | some z =>
    refine ⟨z, List.mem_of_find?_eq_some hfind, List.find?_some hfind, ?_⟩
    rw [get_zone_for_point_eq_find, hfind]; rfl

/-- C6 counterexample: the empty-zone-set fallback does not run the
generic-area resolver: a raw detection with bbox (90, 90, 5, 5) in a
100 x 100 frame is tagged with the literal "full_frame", while the
generic-area resolver at that bbox would produce "bottom-right area";
"full_frame" is not a quadrant label at all. -/
theorem fallback_resolver_counterexample :
    (detect_objects_in_zones [] [⟨"book", 1, 90, 90, 95, 95, 73⟩]).map (fun d => d.zone_name) =
      ["full_frame"]
    ∧ get_location_for_bbox [] 90 90 5 5 100 100 = "bottom-right area"
    ∧ ("full_frame" : String) ≠ "bottom-right area"
    ∧ "full_frame" ∉ quadrant_labels := by
  refine ⟨rfl, ?_, by decide, by decide⟩
  norm_num [get_location_for_bbox, List.find?]; rfl

/-- C6 amended: in zone-only mode with a non-empty zone set, the output is
exactly the raw detections whose center does not resolve to the
outside_zones sentinel (those resolving to it are discarded), each
tagged with the resolved zone name, and every retained detection
carries the name of a zone that contains its center; with an empty zone
set the pipeline falls back to full-frame detection, tagging every
detection with the literal "full_frame" rather than invoking the
generic-area resolver. -/
theorem detect_objects_in_zones_spec :
    (∀ (raws : List RawDetection),
      detect_objects_in_zones [] raws = detect_objects_full_frame raws)
    ∧ (∀ (raws : List RawDetection) (d : Detection),
      d ∈ detect_objects_in_zones [] raws → d.zone_name = "full_frame")
    ∧ (∀ (zones : List Zone) (raws : List RawDetection), zones ≠ [] →
      detect_objects_in_zones zones raws =
        (raws.filter (fun r =>
            get_zone_for_point zones ((r.x1 + r.x2) / 2) ((r.y1 + r.y2) / 2) ≠ "outside_zones")).map
          (fun r =>
            { class_name := r.class_name, confidence := r.confidence,
              bbox := (r.x1, r.y1, r.x2 - r.x1, r.y2 - r.y1),
              class_id := r.class_id,
              zone_name := get_zone_for_point zones ((r.x1 + r.x2) / 2) ((r.y1 + r.y2) / 2) }))
    ∧ (∀ (zones : List Zone) (raws : List RawDetection) (d : Detection), zones ≠ [] →
      d ∈ detect_objects_in_zones zones raws →
        ∃ z ∈ zones,
          is_point_in_zone (d.bbox.1 + d.bbox.2.2.1 / 2) (d.bbox.2.1 + d.bbox.2.2.2 / 2) z = true
          ∧ d.zone_name = z.name) := by
  refine ⟨?_, ?_, ?_, ?_⟩
  · intro raws; rfl
  · intro raws d hd
    have hfull : detect_objects_in_zones [] raws = detect_objects_full_frame raws := rfl
    rw [hfull] at hd
    obtain ⟨r, _, hr⟩ := List.mem_map.mp hd
    rw [← hr]
  · intro zones raws hz
    rw [detect_objects_in_zones, if_neg (by simpa [List.isEmpty_iff] using hz)]
    induction raws with
    | nil => rfl
    | cons r rest ih =>
      by_cases hs : get_zone_for_point zones ((r.x1 + r.x2) / 2) ((r.y1 + r.y2) / 2) = "outside_zones"
      · simpa [List.filterMap_cons, List.filter_cons, hs] using ih
      · simpa [List.filterMap_cons, List.filter_cons, hs] using ih
  · intro zones raws d hz hd
    obtain ⟨r, _, hdr, hs⟩ := mem_detect_objects_in_zones_nonempty hz hd
    obtain ⟨z, hzmem, hzin, hzname⟩ := get_zone_for_point_mem_of_ne_sentinel hs
    refine ⟨z, hzmem, ?_, by rw [hdr]; exact hzname⟩
    have hcx : r.x1 + (r.x2 - r.x1) / 2 = (r.x1 + r.x2) / 2 := by ring
    have hcy : r.y1 + (r.y2 - r.y1) / 2 = (r.y1 + r.y2) / 2 := by ring
    rw [hdr]
    simpa [hcx, hcy] using hzin

theorem detect_objects_in_zones_spec_witness :
    detect_objects_in_zones [⟨"desk", 0, 0, 50, 50⟩]
        [⟨"phone", 1, 10, 10, 15, 15, 0⟩, ⟨"book", 1, 90, 90, 95, 95, 1⟩] =
      (([⟨"phone", 1, 10, 10, 15, 15, 0⟩, ⟨"book", 1, 90, 90, 95, 95, 1⟩] :
          List RawDetection).filter (fun r =>
          get_zone_for_point [⟨"desk", 0, 0, 50, 50⟩]
            ((r.x1 + r.x2) / 2) ((r.y1 + r.y2) / 2) ≠ "outside_zones")).map
        (fun r =>
          { class_name := r.class_name, confidence := r.confidence,
            bbox := (r.x1, r.y1, r.x2 - r.x1, r.y2 - r.y1),
            class_id := r.class_id,
            zone_name := get_zone_for_point [⟨"desk", 0, 0, 50, 50⟩]
              ((r.x1 + r.x2) / 2) ((r.y1 + r.y2) / 2) }) :=
  detect_objects_in_zones_spec.2.2.1 [⟨"desk", 0, 0, 50, 50⟩]
    [⟨"phone", 1, 10, 10, 15, 15, 0⟩, ⟨"book", 1, 90, 90, 95, 95, 1⟩] (by simp)

/-- One row of the object_detections table (the auto-increment id is left
implicit in the list position; it is not consulted by any query under
study). The timestamp is the ISO-8601 text stored by add_detection and
compared by SQLite as text. -/
structure DetectionRow where
  timestamp : String
  object_name : String
  confidence : ℚ
  bbox : ℚ × ℚ × ℚ × ℚ
  frame_size : ℚ × ℚ
  location_description : Option String
  image_path : Option String
deriving DecidableEq, Repr

/-- VisualMemory.add_detection: appends one row; the now argument stands for
datetime.datetime.now().isoformat() taken inside the call. -/
def add_detection (db : List DetectionRow) (object_name : String) (confidence : ℚ)
    (bbox : ℚ × ℚ × ℚ × ℚ) (frame_size : ℚ × ℚ) (location_description : Option String)
    (image_path : Option String) (now : String) : List DetectionRow :=
  db ++ [⟨now, object_name, confidence, bbox, frame_size, location_description, image_path⟩]

/-- Lexicographic strict order on character lists, modelling SQLite's binary
text comparison of the stored ISO-8601 timestamps. -/
def charListLt : List Char → List Char → Bool
  | [], [] => false
  | [], _ :: _ => true
  | _ :: _, [] => false
  | a :: as, b :: bs => if a < b then true else if b < a then false else charListLt as bs

lemma charListLt_irrefl : ∀ (l : List Char), charListLt l l = false := by
  intro l
  induction l with
  | nil => rfl
  | cons a as ih => simp [charListLt, lt_irrefl, ih]

lemma charListLt_asymm : ∀ (x y : List Char), charListLt x y = true → charListLt y x = false := by
  intro x
  induction x with
  | nil =>
    intro y h
    cases y with
    | nil => simp [charListLt] at h
    | cons b bs => rfl
  | cons a as ih =>
    intro y h
    cases y with
    | nil => simp [charListLt] at h
    | cons b bs =>
      simp only [charListLt] at h ⊢
      by_cases hab : a < b
      · simp [hab, lt_asymm hab]
      · by_cases hba : b < a
        · simp [hab, hba] at h
        · simp only [hab, hba, if_false] at h
          simp [hab, hba, ih bs h]

lemma charListLt_trans : ∀ (x y z : List Char),
    charListLt x y = true → charListLt y z = true → charListLt x z = true := by
  intro x
  induction x with
  | nil =>
    intro y z h1 h2
    cases y with
    | nil => simp [charListLt] at h1
    | cons b bs =>
      cases z with
      | nil => simp [charListLt] at h2
      | cons c cs => rfl
  | cons a as ih =>
    intro y z h1 h2
    cases y with
    | nil => simp [charListLt] at h1
    | cons b bs =>
      cases z with
      | nil => simp [charListLt] at h2
      | cons c cs =>
        simp only [charListLt] at h1 h2 ⊢
        by_cases hab : a < b
        · by_cases hbc : b < c
          · simp [lt_trans hab hbc]
          · by_cases hcb : c < b
            · simp [hbc, hcb] at h2
            · have hbc' : b = c := le_antisymm (not_lt.mp hcb) (not_lt.mp hbc)
              simp [hbc' ▸ hab]
        · by_cases hba : b < a
          · simp [hab, hba] at h1
          · have hab' : a = b := le_antisymm (not_lt.mp hba) (not_lt.mp hab)
            subst hab'
            simp only [hab, if_neg (lt_irrefl a), if_false] at h1
            by_cases hac : a < c
            · simp [hac]
            · by_cases hca : c < a
              · simp [hac, hca] at h2
              · simp only [hac, if_neg hca, if_false] at h2 ⊢
                simp [ih bs cs h1 h2]

lemma charListLt_false_of_not_true : ∀ {x y : List Char},
    ¬ charListLt x y = true → charListLt x y = false := by
  intro x y h; simpa using h

/-- The descending-timestamp arrangement relation for ORDER BY timestamp
DESC: row a may precede row b when a's timestamp is not smaller. -/
def ts_desc (a b : DetectionRow) : Prop :=
  charListLt a.timestamp.data b.timestamp.data = false

instance : DecidableRel ts_desc :=
  fun a b => inferInstanceAs (Decidable (charListLt a.timestamp.data b.timestamp.data = false))

instance : IsTotal DetectionRow ts_desc :=
  ⟨fun a b => by
    by_cases h : charListLt a.timestamp.data b.timestamp.data = true
    · exact Or.inr (charListLt_asymm _ _ h)
    · exact Or.inl (charListLt_false_of_not_true h)⟩

lemma charListLt_false_iff : ∀ (x y : List Char),
    charListLt x y = false ↔ (x = y ∨ charListLt y x = true) := by
  intro x
  induction x with
  | nil =>
    intro y
    cases y with
    | nil => simp [charListLt]
    | cons b bs => simp [charListLt]
  | cons a as ih =>
    intro y
    cases y with
    | nil => simp [charListLt]
    | cons b bs =>
      simp only [charListLt]
      by_cases hab : a < b
      · have hba : ¬ b < a := lt_asymm hab
        constructor
        · intro hcontr; simp [hab] at hcontr
        · rintro (hcontr | hcontr)
          · injection hcontr with h1 _
            exact absurd (h1 ▸ hab) (lt_irrefl b)
          · simp only [charListLt, if_neg hba, if_pos hab] at hcontr
            exact absurd hcontr (by simp)
      · by_cases hba : b < a
        · simp [hab, hba]
        · have hab' : a = b := le_antisymm (not_lt.mp hba) (not_lt.mp hab)
          subst hab'
          simp [hab, ih bs]

instance : IsTrans DetectionRow ts_desc :=
  ⟨fun a b c h1 h2 => by
    unfold ts_desc at h1 h2 ⊢
    rw [charListLt_false_iff] at h1 h2 ⊢
    rcases h1 with h1 | h1
    · rcases h2 with h2 | h2
      · exact Or.inl (h1.trans h2)
      · exact Or.inr (h1 ▸ h2)
    · rcases h2 with h2 | h2
      · exact Or.inr (h2 ▸ h1)
      · exact Or.inr (charListLt_trans _ _ _ h2 h1)⟩

/-- ORDER BY timestamp DESC, modelled as a sort under ts_desc. Ties between
equal timestamps are returned in an unspecified order by SQLite; the
properties proved below are insensitive to the tie order. -/
def sort_by_timestamp_desc (l : List DetectionRow) : List DetectionRow :=
  l.insertionSort ts_desc

/-- VisualMemory.get_recent_detections: WHERE timestamp > cutoff ORDER BY
timestamp DESC LIMIT limit. The cutoff argument stands for
(datetime.datetime.now() - datetime.timedelta(hours=hours)).isoformat()
computed inside the call, i.e. now() minus the window. -/
def get_recent_detections (db : List DetectionRow) (cutoff : String) (limit : Nat) :
    List DetectionRow :=
  (sort_by_timestamp_desc (db.filter (fun r => charListLt cutoff.data r.timestamp.data))).take
    limit

/-- Strict descending adjacency between rows, used to state the strictness
part of C7. -/
def ts_desc_strict (a b : DetectionRow) : Prop :=
  charListLt b.timestamp.data a.timestamp.data = true

instance : DecidableRel ts_desc_strict :=
  fun a b => inferInstanceAs (Decidable (charListLt b.timestamp.data a.timestamp.data = true))

def recent_cex_row_a : DetectionRow :=
  ⟨"2024-05-01T10:00:00", "cup", 1, (0, 0, 1, 1), (100, 100), some "desk", none⟩

def recent_cex_row_b : DetectionRow :=
  ⟨"2024-05-01T10:00:00", "phone", 1, (0, 0, 1, 1), (100, 100), some "desk", none⟩

/-- C7 counterexample: two rows inserted with the same timestamp are both
returned within the window, so the result is not ordered strictly
descending by timestamp (the claim's strictness fails; the order is
descending only in the non-strict sense). -/
theorem recent_strict_descending_counterexample :
    (get_recent_detections [recent_cex_row_a, recent_cex_row_b]
        "2024-01-01T00:00:00" 10).map (fun r => r.object_name) = ["cup", "phone"]
    ∧ ¬ List.Pairwise ts_desc_strict
        (get_recent_detections [recent_cex_row_a, recent_cex_row_b]
          "2024-01-01T00:00:00" 10) := by
  constructor
  · decide
  · decide

/-- C7 amended: get_recent_detections returns at most limit rows, each drawn
from the log with timestamp strictly greater than the cutoff (now minus
the window), ordered by timestamp descending in the non-strict sense
(rows with equal timestamps may be adjacent). -/
theorem get_recent_detections_spec (db : List DetectionRow) (cutoff : String) (limit : Nat) :
    (get_recent_detections db cutoff limit).length ≤ limit
    ∧ (∀ r ∈ get_recent_detections db cutoff limit,
        r ∈ db ∧ charListLt cutoff.data r.timestamp.data = true)
    ∧ List.Pairwise ts_desc (get_recent_detections db cutoff limit) := by
  refine ⟨?_, ?_, ?_⟩
  · exact List.length_take_le limit _
  · intro r hr
    have hr' : r ∈ sort_by_timestamp_desc
        (db.filter (fun r => charListLt cutoff.data r.timestamp.data)) :=
      List.mem_of_mem_take hr
    have hr'' : r ∈ db.filter (fun r => charListLt cutoff.data r.timestamp.data) :=
      (List.perm_insertionSort ts_desc _).mem_iff.mp hr'
    exact ⟨(List.mem_filter.mp hr'').1, (List.mem_filter.mp hr'').2⟩
  · exact (List.sorted_insertionSort ts_desc
      (db.filter (fun r => charListLt cutoff.data r.timestamp.data))).sublist
      (List.take_sublist _ _)

theorem get_recent_detections_spec_witness :
    recent_cex_row_a ∈ [recent_cex_row_a]
    ∧ charListLt ("2024-01-01T00:00:00").data recent_cex_row_a.timestamp.data = true :=
  (get_recent_detections_spec [recent_cex_row_a] "2024-01-01T00:00:00" 5).2.1
    recent_cex_row_a (by decide)

/-- ASCII lower-casing of a single character, as performed by SQLite's
default LIKE on the letters A-Z. -/
def lower_ascii (c : Char) : Char :=
  if 'A' ≤ c ∧ c ≤ 'Z' then Char.ofNat (c.toNat + 32) else c

/-- SQLite LIKE pattern matching (default pragmas): percent matches any
sequence, underscore matches one character, ordinary characters match up
to ASCII case folding. Structured with explicit fuel so the definition
computes by structural recursion; each step shrinks pattern plus text,
so the fuel used by like_match below is always sufficient. -/
def like_match_fuel : Nat → List Char → List Char → Bool
  | 0, _, _ => false
  | _ + 1, [], s => s.isEmpty
  | n + 1, '%' :: ps, s =>
    like_match_fuel n ps s ||
      (match s with
       | [] => false
       | _ :: s' => like_match_fuel n ('%' :: ps) s')
  | n + 1, '_' :: ps, s =>
    (match s with
     | [] => false
     | _ :: s' => like_match_fuel n ps s')
  | n + 1, p :: ps, s =>
    (match s with
     | [] => false
     | c :: s' => lower_ascii p == lower_ascii c && like_match_fuel n ps s')

/-- s LIKE pat under SQLite's default semantics. -/
def like_match (pat s : String) : Bool :=
  like_match_fuel (pat.data.length + s.data.length + 1) pat.data s.data

/-- VisualMemory.search_objects_by_location: WHERE location_description LIKE
percent-keyword-percent ORDER BY timestamp DESC, no LIMIT. Rows whose
location_description is NULL fail the LIKE predicate. -/
def search_objects_by_location (db : List DetectionRow) (keyword : String) :
    List DetectionRow :=
  sort_by_timestamp_desc (db.filter (fun r =>
    match r.location_description with
    | some s => like_match ("%" ++ keyword ++ "%") s
    | none => false))

def list_starts_with : List Char → List Char → Bool
  | [], _ => true
  | _ :: _, [] => false
  | a :: as, b :: bs => a == b && list_starts_with as bs

def list_contains_sub (needle : List Char) : List Char → Bool
  | [] => needle.isEmpty
  | c :: rest => list_starts_with needle (c :: rest) || list_contains_sub needle rest

/-- Follows the spec's words for the location search: location_description
contains the keyword as a case-sensitive substring with no other
normalization, ordered by timestamp descending; for comparison with the
source's SQL LIKE behavior. -/
def search_by_location_spec_case_sensitive (db : List DetectionRow) (keyword : String) :
    List DetectionRow :=
  sort_by_timestamp_desc (db.filter (fun r =>
    match r.location_description with
    | some s => list_contains_sub keyword.data s.data
    | none => false))

def search_cex_row : DetectionRow :=
  ⟨"2024-05-01T10:00:00", "cup", 1, (0, 0, 1, 1), (100, 100), some "desk area", none⟩

/-- C4 counterexample: the keyword "DESK" matches the stored location
"desk area" through SQL LIKE, which folds ASCII case, so the source
returns the row, while a case-sensitive substring search returns
nothing. -/
theorem search_case_sensitivity_counterexample :
    (search_objects_by_location [search_cex_row] "DESK").map (fun r => r.object_name) = ["cup"]
    ∧ search_by_location_spec_case_sensitive [search_cex_row] "DESK" = [] := by
  constructor
  · decide
  · decide

/-- C4 amended: search_objects_by_location returns exactly the stored rows
whose location_description matches the SQL LIKE pattern
percent-keyword-percent — substring matching that is case-insensitive on
ASCII letters, with percent and underscore in the keyword acting as
wildcards — ordered by timestamp descending (non-strict), with no limit:
the result is a permutation of all matching rows. -/
theorem search_objects_by_location_spec (db : List DetectionRow) (keyword : String) :
    List.Perm (search_objects_by_location db keyword)
      (db.filter (fun r =>
        match r.location_description with
        | some s => like_match ("%" ++ keyword ++ "%") s
        | none => false))
    ∧ List.Pairwise ts_desc (search_objects_by_location db keyword)
    ∧ (∀ r ∈ search_objects_by_location db keyword,
        r ∈ db ∧ ∃ s, r.location_description = some s
          ∧ like_match ("%" ++ keyword ++ "%") s = true) := by
  refine ⟨List.perm_insertionSort ts_desc _, List.sorted_insertionSort ts_desc _, ?_⟩
  intro r hr
  have hr' : r ∈ db.filter (fun r =>
      match r.location_description with
      | some s => like_match ("%" ++ keyword ++ "%") s
      | none => false) :=
    (List.perm_insertionSort ts_desc _).mem_iff.mp hr
  refine ⟨(List.mem_filter.mp hr').1, ?_⟩
  have hpred := (List.mem_filter.mp hr').2
  cases hloc : r.location_description with
  | none => rw [hloc] at hpred; exact absurd hpred (by simp)
  | some s => rw [hloc] at hpred; exact ⟨s, rfl, hpred⟩

theorem search_objects_by_location_spec_witness :
    search_cex_row ∈ [search_cex_row]
    ∧ ∃ s, search_cex_row.location_description = some s
      ∧ like_match ("%" ++ "DESK" ++ "%") s = true :=
  (search_objects_by_location_spec [search_cex_row] "DESK").2.2 search_cex_row (by decide)

/-- ZoneFocusedDetector._save_detections_to_memory: writes each detection
with location_description set to its zone_name (the detection dicts
built by both detect paths always carry zone_name, so the source's
dict-get default 'unknown_zone' is never taken). -/
def save_detections_to_memory (db : List DetectionRow) (dets : List Detection)
    (frame_size : ℚ × ℚ) (now : String) : List DetectionRow :=
  dets.foldl (fun acc d =>
    add_detection acc d.class_name d.confidence d.bbox frame_size (some d.zone_name) none now)
    db

/-- One detection dict as built by ObjectDetector.detect_objects (no
zone_name field). -/
structure GenericDetection where
  class_name : String
  confidence : ℚ
  bbox : ℚ × ℚ × ℚ × ℚ
  class_id : Nat
deriving DecidableEq, Repr

/-- ObjectDetector._save_detections_to_memory: resolves each detection's
location through get_location_for_bbox and writes it. The zones argument
stands for the decoded zones.json content read inside
get_location_for_bbox. -/
def save_detections_to_memory_generic (db : List DetectionRow) (dets : List GenericDetection)
    (zones : List Zone) (fw fh : ℚ) (now : String) : List DetectionRow :=
  dets.foldl (fun acc d =>
    add_detection acc d.class_name d.confidence d.bbox (fw, fh)
      (some (get_location_for_bbox zones d.bbox.1 d.bbox.2.1 d.bbox.2.2.1 d.bbox.2.2.2 fw fh))
      none now)
    db

lemma save_detections_to_memory_eq (db : List DetectionRow) (dets : List Detection)
    (frame_size : ℚ × ℚ) (now : String) :
    save_detections_to_memory db dets frame_size now =
      db ++ dets.map (fun d =>
        ⟨now, d.class_name, d.confidence, d.bbox, frame_size, some d.zone_name, none⟩) := by
  induction dets generalizing db with
  | nil => simp [save_detections_to_memory]
  | cons d rest ih =>
    simp only [save_detections_to_memory, List.foldl_cons, List.map_cons] at ih ⊢
    rw [ih, add_detection, List.append_assoc]
    rfl

lemma save_detections_to_memory_generic_eq (db : List DetectionRow)
    (dets : List GenericDetection) (zones : List Zone) (fw fh : ℚ) (now : String) :
    save_detections_to_memory_generic db dets zones fw fh now =
      db ++ dets.map (fun d =>
        ⟨now, d.class_name, d.confidence, d.bbox, (fw, fh),
         some (get_location_for_bbox zones d.bbox.1 d.bbox.2.1 d.bbox.2.2.1 d.bbox.2.2.2 fw fh),
         none⟩) := by
  induction dets generalizing db with
  | nil => simp [save_detections_to_memory_generic]
  | cons d rest ih =>
    simp only [save_detections_to_memory_generic, List.foldl_cons, List.map_cons] at ih ⊢
    rw [ih, add_detection, List.append_assoc]
    rfl

lemma detect_objects_in_zones_zone_name {zones : List Zone} {raws : List RawDetection}
    {d : Detection} (hd : d ∈ detect_objects_in_zones zones raws) :
    d.zone_name = "full_frame" ∨ ∃ z ∈ zones, d.zone_name = z.name := by
  rcases eq_or_ne zones [] with hz | hz
  · subst hz
    have hfull : detect_objects_in_zones [] raws = detect_objects_full_frame raws := rfl
    rw [hfull] at hd
    obtain ⟨r, _, hr⟩ := List.mem_map.mp hd
    exact Or.inl (by rw [← hr])
  · obtain ⟨r, _, hdr, hs⟩ := mem_detect_objects_in_zones_nonempty hz hd
    obtain ⟨z, hzmem, _, hzname⟩ := get_zone_for_point_mem_of_ne_sentinel hs
    refine Or.inr ⟨z, hzmem, ?_⟩
    rw [hdr]; exact hzname

lemma get_location_for_bbox_name_or_quadrant (zones : List Zone) (x y w h fw fh : ℚ) :
    (∃ z ∈ zones, get_location_for_bbox zones x y w h fw fh = z.name)
    ∨ get_location_for_bbox zones x y w h fw fh ∈ quadrant_labels := by
  cases hfind : zones.find? (fun zo => is_point_in_zone (x + w / 2) (y + h / 2) zo) with
  | some z =>
    exact Or.inl ⟨z, List.mem_of_find?_eq_some hfind,
      by simp only [get_location_for_bbox, hfind]⟩
  | none =>
    right
    simp only [get_location_for_bbox, hfind, quadrant_labels]
    split_ifs <;> decide

/-- C5 counterexample: with an empty zone set the zone-only pipeline falls
back to full-frame detection and the persisted row's
location_description is the literal string "full_frame", which is
neither a defined zone name (the zone set is empty) nor one of the nine
generic quadrant strings. -/
theorem full_frame_location_counterexample :
    (save_detections_to_memory []
        (detect_objects_in_zones [] [⟨"book", 1, 90, 90, 95, 95, 73⟩])
        (100, 100) "2024-05-01T10:00:00").map (fun r => r.location_description) =
      [some "full_frame"]
    ∧ "full_frame" ∉ quadrant_labels := by
  constructor
  · rfl
  · decide

/-- C5 amended: every row persisted by the ingest paths carries a non-null
location_description; on the zone-focused path it is either the name of
a defined zone or the literal "full_frame" written by the empty-zone-set
full-frame fallback (not a quadrant string), and on the generic path it
is either a defined zone name or one of the nine quadrant strings. -/
theorem location_description_always_labelled :
    (∀ (zones : List Zone) (raws : List RawDetection) (db : List DetectionRow)
        (frame_size : ℚ × ℚ) (now : String) (r : DetectionRow),
      r ∈ save_detections_to_memory db (detect_objects_in_zones zones raws) frame_size now →
        r ∈ db ∨ ∃ s, r.location_description = some s
          ∧ (s = "full_frame" ∨ ∃ z ∈ zones, s = z.name))
    ∧ (∀ (zones : List Zone) (dets : List GenericDetection) (db : List DetectionRow)
        (fw fh : ℚ) (now : String) (r : DetectionRow),
      r ∈ save_detections_to_memory_generic db dets zones fw fh now →
        r ∈ db ∨ ∃ s, r.location_description = some s
          ∧ ((∃ z ∈ zones, s = z.name) ∨ s ∈ quadrant_labels)) := by
  constructor
  · intro zones raws db frame_size now r hr
    rw [save_detections_to_memory_eq] at hr
    rcases List.mem_append.mp hr with hdb | hnew
    · exact Or.inl hdb
    · obtain ⟨d, hd, hrd⟩ := List.mem_map.mp hnew
      subst hrd
      refine Or.inr ⟨d.zone_name, rfl, ?_⟩
      rcases detect_objects_in_zones_zone_name hd with hff | ⟨z, hzmem, hzeq⟩
      · exact Or.inl hff
      · exact Or.inr ⟨z, hzmem, hzeq⟩
  · intro zones dets db fw fh now r hr
    rw [save_detections_to_memory_generic_eq] at hr
    rcases List.mem_append.mp hr with hdb | hnew
    · exact Or.inl hdb
    · obtain ⟨d, _, hrd⟩ := List.mem_map.mp hnew
      subst hrd
      exact Or.inr ⟨_, rfl, get_location_for_bbox_name_or_quadrant zones _ _ _ _ fw fh⟩

theorem location_description_always_labelled_witness :
    (⟨"t0", "book", 1, (90, 90, 95 - 90, 95 - 90), (100, 100), some "full_frame", none⟩ :
        DetectionRow) ∈ ([] : List DetectionRow)
    ∨ ∃ s, (⟨"t0", "book", 1, (90, 90, 95 - 90, 95 - 90), (100, 100), some "full_frame", none⟩ :
        DetectionRow).location_description = some s
      ∧ (s = "full_frame" ∨ ∃ z ∈ ([] : List Zone), s = z.name) :=
  location_description_always_labelled.1 [] [⟨"book", 1, 90, 90, 95, 95, 73⟩] [] (100, 100) "t0"
    ⟨"t0", "book", 1, (90, 90, 95 - 90, 95 - 90), (100, 100), some "full_frame", none⟩
    (by simp [save_detections_to_memory, detect_objects_in_zones, detect_objects_full_frame,
      add_detection])

/-- JSON values, as produced and consumed by the json library on the
zones.json file. The textual layer is elided: the json module's dump and
parse are mutually faithful on the values the tool writes, so the file is
modelled as holding a value rather than text. -/
inductive Json where
  | null
  | bool (b : Bool)
  | num (q : ℚ)
  | str (s : String)
  | arr (items : List Json)
  | obj (fields : List (String × Json))

/-- The JSON object json.dump writes for one zone: string name plus the
4-number bbox array (a Python tuple or list serializes to an array
either way). -/
def encodeZone (z : Zone) : Json :=
  .obj [("name", .str z.name), ("bbox", .arr [.num z.x, .num z.y, .num z.w, .num z.h])]

/-- The JSON array json.dump writes for the whole zone list. -/
def encodeZones (zones : List Zone) : Json :=
  .arr (zones.map encodeZone)

/-- The reader-side field accesses zone of bracket name and bracket bbox
with 4-element unpacking, as performed by every consumer of the loaded
zones; any shape mismatch raises in Python, modelled as none. The
encoder writes each key once, so first-binding lookup is faithful. -/
def decodeZone (j : Json) : Option Zone :=
  match j with
  | .obj fields =>
    match fields.lookup "name", fields.lookup "bbox" with
    | some (.str n), some (.arr [.num a, .num b, .num c, .num d]) => some ⟨n, a, b, c, d⟩
    | _, _ => none
  | _ => none

def decode_zone_list : List Json → Option (List Zone)
  | [] => some []
  | j :: js =>
    match decodeZone j, decode_zone_list js with
    | some z, some zs => some (z :: zs)
    | _, _ => none

def decodeZones (j : Json) : Option (List Zone) :=
  match j with
  | .arr items => decode_zone_list items
  | _ => none

/-- Observable states of the zones.json backing file: missing, holding text
that does not parse as JSON (including the zero-length text left by a
bare truncation), or holding text that parses to a value. -/
inductive FileContent where
  | absent
  | unparseable
  | stored (j : Json)

/-- VisualMemory.load_custom_zones: returns the parsed value unvalidated
when the file exists and parses; returns the empty list when the file is
absent or json.load raises (the exception is caught, never re-raised).
The tool's ZoneDefinitionTool.load_zones follows the same shape. -/
def load_custom_zones : FileContent → Json
  | .absent => .arr []
  | .unparseable => .arr []
  | .stored j => j

/-- Whether Python len() succeeds on the parsed value, as attempted by the
post-parse print of ZoneFocusedDetector.load_zones. -/
def json_has_len : Json → Bool
  | .arr _ => true
  | .obj _ => true
  | .str _ => true
  | _ => false

/-- ZoneFocusedDetector.load_zones: on a missing file or a parse failure the
zones attribute is left unchanged and False is returned; on a parse
success the attribute is set to the parsed value before the len() call,
whose failure is caught and turned into False with the attribute already
overwritten. Result: new zones attribute value, returned flag. -/
def load_zones : FileContent → Json → Json × Bool
  | .absent, prior => (prior, false)
  | .unparseable, prior => (prior, false)
  | .stored j, _ => (j, json_has_len j)

/-- The zones.json state left by ZoneDefinitionTool.save_zones once the
open(filename, "w") has truncated the destination in place but the dump
has not yet completed: zero or partial bytes, not parseable. The source
writes directly to the destination — no temporary file, fsync, rename,
or change marker — so the prior content is already destroyed at this
point. -/
def save_zones_truncated (_prior : FileContent) (_zones : List Zone) : FileContent :=
  .unparseable

/-- The zones.json state after ZoneDefinitionTool.save_zones has completed
its in-place json.dump of the zone list. -/
def save_zones_completed (_prior : FileContent) (zones : List Zone) : FileContent :=
  .stored (encodeZones zones)

lemma decode_zone_list_encode (zones : List Zone) :
    decode_zone_list (zones.map encodeZone) = some zones := by
  induction zones with
  | nil => rfl
  | cons z rest ih =>
    have hz : decodeZone (encodeZone z) = some z := rfl
    simp [decode_zone_list, hz, ih]

/-- C3 counterexample: starting from a file holding the single zone "desk",
the state save_zones passes through after truncating the destination but
before completing the dump makes load return the empty zone list — a
reader observes neither the pre-replace set nor the new set, so the
write-temp-sync-rename contract and its durability consequence fail on
the source. -/
theorem replace_atomicity_counterexample :
    decodeZones (load_custom_zones (save_zones_truncated
        (save_zones_completed .absent [⟨"desk", 0, 0, 50, 50⟩]) [⟨"table", 5, 5, 30, 30⟩])) =
      some []
    ∧ some ([] : List Zone) ≠ some [(⟨"desk", 0, 0, 50, 50⟩ : Zone)]
    ∧ some ([] : List Zone) ≠ some [(⟨"table", 5, 5, 30, 30⟩ : Zone)] := by
  refine ⟨rfl, ?_, ?_⟩ <;> simp

/-- C3 amended: save_zones writes the JSON directly to the destination file
with no temporary location, durable sync, rename, or change marker; a
completed save leaves load returning exactly the new set, but an
interruption after the in-place truncation and before the dump completes
leaves the file unparseable, and load then returns the empty list rather
than the pre-replace set. -/
theorem save_zones_direct_write (prior : FileContent) (zones : List Zone) :
    load_custom_zones (save_zones_completed prior zones) = encodeZones zones
    ∧ decodeZones (load_custom_zones (save_zones_completed prior zones)) = some zones
    ∧ load_custom_zones (save_zones_truncated prior zones) = Json.arr []
    ∧ decodeZones (load_custom_zones (save_zones_truncated prior zones)) = some [] := by
  refine ⟨rfl, ?_, rfl, rfl⟩
  simpa [save_zones_completed, load_custom_zones, encodeZones, decodeZones]
    using decode_zone_list_encode zones

/-- C8 counterexample: a zones.json holding the syntactically valid JSON
text 5 is not treated as absence: load_custom_zones returns the number 5
itself (not an empty zone sequence, and not decodable as any zone list),
and the detector's load_zones leaves 5 stored in its zones attribute
while returning False. -/
theorem load_fail_soft_counterexample :
    load_custom_zones (.stored (Json.num 5)) = Json.num 5
    ∧ Json.num 5 ≠ Json.arr []
    ∧ decodeZones (Json.num 5) = none
    ∧ load_zones (.stored (Json.num 5)) (Json.arr []) = (Json.num 5, false) := by
  refine ⟨rfl, ?_, rfl, rfl⟩
  simp

/-- C8 amended: when the backing file is absent or its text fails to parse
as JSON, load_custom_zones returns the empty list and load_zones leaves
the prior zones value in place (the empty list from a fresh state),
returning False — no exception reaches the caller on any input, every
branch being a total return; but syntactically valid JSON of the wrong
shape is returned, or stored, unvalidated, and only fails later at the
consumer. -/
theorem load_fail_soft (fc : FileContent) (prior : Json) :
    (fc = .absent ∨ fc = .unparseable →
      load_custom_zones fc = Json.arr [] ∧ load_zones fc prior = (prior, false))
    ∧ (∀ j, fc = .stored j →
      load_custom_zones fc = j ∧ load_zones fc prior = (j, json_has_len j)) := by
  constructor
  · rintro (h | h) <;> subst h <;> exact ⟨rfl, rfl⟩
  · rintro j h; subst h; exact ⟨rfl, rfl⟩

theorem load_fail_soft_witness :
    load_custom_zones .absent = Json.arr []
    ∧ load_zones .absent (Json.arr []) = (Json.arr [], false) :=
  (load_fail_soft .absent (Json.arr [])).1 (Or.inl rfl)

/-- C9: replace followed by load round-trips: the loaded value is exactly
the encoded zone list, it decodes back to the written zone sequence, and
hence the sequences of (name, bbox) pairs agree (equality as sequences,
so in particular as sets). -/
theorem replace_load_round_trip (prior : FileContent) (zones : List Zone) :
    load_custom_zones (save_zones_completed prior zones) = encodeZones zones
    ∧ decodeZones (load_custom_zones (save_zones_completed prior zones)) = some zones
    ∧ (decodeZones (load_custom_zones (save_zones_completed prior zones))).map
        (List.map (fun z => (z.name, (z.x, z.y, z.w, z.h)))) =
      some (zones.map (fun z => (z.name, (z.x, z.y, z.w, z.h)))) := by
  have hdec : decodeZones (load_custom_zones (save_zones_completed prior zones)) = some zones := by
    simpa [save_zones_completed, load_custom_zones, encodeZones, decodeZones]
      using decode_zone_list_encode zones
  exact ⟨rfl, hdec, by rw [hdec]; rfl⟩

/-- Python str.strip(): removes leading and trailing whitespace. -/
def strip (s : String) : String :=
  ⟨((s.data.dropWhile Char.isWhitespace).reverse.dropWhile Char.isWhitespace).reverse⟩

/-- The EVENT_LBUTTONUP branch of ZoneDefinitionTool.mouse_callback: the
drag from (x1, y1) to (x2, y2) is normalized to a top-left anchored
rectangle; a zone is appended only when both sides strictly exceed 10
pixels and the stripped name read from input() is non-empty. Mouse
coordinates are integer pixels. -/
def mouse_release_add_zone (zones : List Zone) (x1 y1 x2 y2 : Int) (name_input : String) :
    List Zone :=
  let xMin := min x1 x2
  let xMax := max x1 x2
  let yMin := min y1 y2
  let yMax := max y1 y2
  if 10 < xMax - xMin ∧ 10 < yMax - yMin then
    let zoneName := strip name_input
    if zoneName ≠ "" then
      zones ++ [⟨zoneName, (xMin : ℚ), (yMin : ℚ), ((xMax - xMin : Int) : ℚ),
                ((yMax - yMin : Int) : ℚ)⟩]
    else zones
  else zones

/-- C10: a completed drag appends a zone exactly when the normalized
rectangle's width and height each strictly exceed 10 pixels and the
entered name is non-empty after stripping; consequently every zone the
tool appends has width > 10, height > 10 (hence width > 0, height > 0,
strictly stronger than the spec's data-model invariant) and a non-empty
name. -/
theorem mouse_release_add_zone_spec (zones : List Zone) (x1 y1 x2 y2 : Int)
    (name_input : String) :
    (¬ (10 < max x1 x2 - min x1 x2 ∧ 10 < max y1 y2 - min y1 y2 ∧ strip name_input ≠ "") →
      mouse_release_add_zone zones x1 y1 x2 y2 name_input = zones)
    ∧ ((10 < max x1 x2 - min x1 x2 ∧ 10 < max y1 y2 - min y1 y2 ∧ strip name_input ≠ "") →
      mouse_release_add_zone zones x1 y1 x2 y2 name_input =
        zones ++ [⟨strip name_input, ((min x1 x2 : Int) : ℚ), ((min y1 y2 : Int) : ℚ),
                   ((max x1 x2 - min x1 x2 : Int) : ℚ), ((max y1 y2 - min y1 y2 : Int) : ℚ)⟩])
    ∧ (∀ z ∈ mouse_release_add_zone zones x1 y1 x2 y2 name_input,
        z ∈ zones ∨ (10 < z.w ∧ 10 < z.h ∧ 0 < z.w ∧ 0 < z.h ∧ z.name ≠ "")) := by
  refine ⟨?_, ?_, ?_⟩
  · intro hnot
    unfold mouse_release_add_zone
    by_cases hwh : 10 < max x1 x2 - min x1 x2 ∧ 10 < max y1 y2 - min y1 y2
    · have hname : ¬ strip name_input ≠ "" := fun hn => hnot ⟨hwh.1, hwh.2, hn⟩
      simp [hwh, hname]
    · simp [hwh]
  · rintro ⟨hw, hh, hname⟩
    unfold mouse_release_add_zone
    simp [hw, hh, hname]
  · intro z hz
    unfold mouse_release_add_zone at hz
    by_cases hwh : 10 < max x1 x2 - min x1 x2 ∧ 10 < max y1 y2 - min y1 y2
    · by_cases hname : strip name_input ≠ ""
      · simp only [hwh, hname, and_self, if_true, and_true, ne_eq, not_false_eq_true] at hz
        rcases List.mem_append.mp hz with hzold | hznew
        · exact Or.inl hzold
        · right
          have hzeq := List.mem_singleton.mp hznew
          subst hzeq
          have hw10 : (10 : ℚ) < ((max x1 x2 - min x1 x2 : Int) : ℚ) := by
            exact_mod_cast hwh.1
          have hh10 : (10 : ℚ) < ((max y1 y2 - min y1 y2 : Int) : ℚ) := by
            exact_mod_cast hwh.2
          exact ⟨hw10, hh10, lt_trans (by norm_num) hw10, lt_trans (by norm_num) hh10, hname⟩
      · simp only [hwh, and_self, if_true, hname, if_false] at hz
        exact Or.inl hz
    · simp only [hwh, if_false] at hz
      exact Or.inl hz

theorem mouse_release_add_zone_spec_witness :
    mouse_release_add_zone [] 0 0 20 40 "desk" =
      [] ++ [⟨strip "desk", ((min (0 : Int) 20 : Int) : ℚ), ((min (0 : Int) 40 : Int) : ℚ),
             ((max (0 : Int) 20 - min (0 : Int) 20 : Int) : ℚ),
             ((max (0 : Int) 40 - min (0 : Int) 40 : Int) : ℚ)⟩] :=
  (mouse_release_add_zone_spec [] 0 0 20 40 "desk").2.1 (by decide)

end AIHome
